import Mathlib

/-!
Shallow embedding of the task-management backend's dependency and status
consistency engine (`backend/src/models/Task.js`, `TaskController`,
`database/schema.sql`).  Tasks and dependency edges are modelled as lists,
mirroring the SQL tables; each model method is translated statement by
statement from the JavaScript source.
-/

namespace TaskApp

/-- Task status, matching the CHECK constraint on `tasks.status`
(`To Do`, `In Progress`, `Completed`, `Blocked`). -/
inductive Status where
  | todo
  | inProgress
  | completed
  | blocked
  deriving DecidableEq, Repr

/-- Task priority, matching the CHECK constraint on `tasks.priority`. -/
inductive Priority where
  | low
  | medium
  | high
  deriving DecidableEq, Repr

/-- One row of the `tasks` table; field names follow the SQL columns. -/
structure TaskRow where
  id : Nat
  user_id : Nat
  title : String
  description : Option String
  parent_task_id : Option Nat
  due_date : Option Nat
  priority : Priority
  status : Status
  deriving DecidableEq, Repr

/-- Database state: the `tasks` table and the `task_dependencies` table
(each edge is the pair `(task_id, depends_on_task_id)`). -/
structure St where
  tasks : List TaskRow
  deps : List (Nat × Nat)
  deriving DecidableEq, Repr

/-- The distinct error conditions thrown by the `Task` model methods
(the JavaScript throws `Error` objects with distinct messages; the
controller distinguishes them by substring). -/
inductive Err where
  | notFound
  | circular
  | alreadyExists
  | subtasksIncomplete
  | noFields
  deriving DecidableEq, Repr

/-- Unscoped lookup of a task row by id (used by
`updateTaskStatusBasedOnDependencies`, whose SQL has no user filter). -/
def findTask (s : St) (i : Nat) : Option TaskRow :=
  s.tasks.find? (fun t => t.id == i)

/-- `Task.findById`: lookup scoped by id and owner. -/
def Task.findById (i u : Nat) (s : St) : Option TaskRow :=
  s.tasks.find? (fun t => t.id == i && t.user_id == u)

/-- Status of the task with id `i`, if present. -/
def statusOf (s : St) (i : Nat) : Option Status :=
  (findTask s i).map (fun t => t.status)

/-- The incomplete-dependency test of `updateTaskStatusBasedOnDependencies`:
`SELECT COUNT(*) FROM task_dependencies td JOIN tasks t ON
td.depends_on_task_id = t.id WHERE td.task_id = $1 AND t.status != 'Completed'`
is positive. -/
def hasIncompleteDeps (s : St) (i : Nat) : Bool :=
  s.deps.any (fun e =>
    e.1 == i && s.tasks.any (fun t => t.id == e.2 && !(t.status == Status.completed)))

/-- `UPDATE tasks SET status = v WHERE id = i` (no user filter in the source). -/
def setStatus (s : St) (i : Nat) (v : Status) : St :=
  { s with tasks := s.tasks.map (fun t => if t.id == i then { t with status := v } else t) }

/-- `Task.updateTaskStatusBasedOnDependencies`: reads the incomplete-dependency
count and the current status, then performs at most one of the two conditional
status writes of the source. -/
def Task.updateTaskStatusBasedOnDependencies (i : Nat) (s : St) : St :=
  match findTask s i with
  | none => s
  | some t =>
    let b := hasIncompleteDeps s i
    if b && !(t.status == Status.blocked) && !(t.status == Status.completed) then
      setStatus s i Status.blocked
    else if !b && t.status == Status.blocked then
      setStatus s i Status.todo
    else s

/-- `SELECT depends_on_task_id FROM task_dependencies WHERE task_id = $1`. -/
def successors (deps : List (Nat × Nat)) (x : Nat) : List Nat :=
  (deps.filter (fun e => e.1 == x)).map (fun e => e.2)

/-- The recursive body of `Task.checkCircularDependency(fromTaskId, toTaskId,
visited, path)`.  `visited` and `path` are JavaScript `Set`s mutated in place
and shared across sibling recursive calls, so they are threaded through the
fold; a `true` result returns immediately without removing `toTaskId` from
`path`, exactly as the source does.  The `fuel` argument only bounds the
recursion depth (the source relies on `visited` growing for termination);
`fromTaskId` is carried but — as in the source — never consulted. -/
def ccd (deps : List (Nat × Nat)) :
    Nat → Nat → Nat → List Nat → List Nat → Bool × List Nat × List Nat
  | 0, _, _, visited, path => (false, visited, path)
  | Nat.succ fuel, fromTaskId, toTaskId, visited, path =>
    if toTaskId ∈ path then (true, visited, path)
    else if toTaskId ∈ visited then (false, visited, path)
    else
      let visited1 := toTaskId :: visited
      let path1 := toTaskId :: path
      let r := (successors deps toTaskId).foldl
        (fun acc d =>
          if acc.1 then acc
          else ccd deps fuel fromTaskId d acc.2.1 acc.2.2)
        (false, visited1, path1)
      if r.1 then r
      else (false, r.2.1, (r.2.2).erase toTaskId)

/-- `Task.checkCircularDependency` called with fresh empty `visited`/`path`
sets, as `addDependency` and `validateDependencies` do.  The fuel bound
exceeds the number of distinct node ids reachable through edges, so it is
never exhausted on the runs the source performs. -/
def Task.checkCircularDependency (s : St) (fromTaskId toTaskId : Nat) : Bool :=
  (ccd s.deps (2 * s.deps.length + 2) fromTaskId toTaskId [] []).1

/-- `Task.validateDependencies(taskId, dependsOnTaskId)`: delegates to the
circular-dependency check. -/
def Task.validateDependencies (taskId dependsOnTaskId : Nat) (s : St) : Bool :=
  Task.checkCircularDependency s taskId dependsOnTaskId

/-- `Task.addDependency(taskId, dependsOnTaskId, userId)`: the two-row
ownership check (`WHERE id IN ($1, $2) AND user_id = $3` must return exactly
2 rows), then the cycle check, then the insert (unique violation reported as
`alreadyExists`), then the status recompute on `taskId`. -/
def Task.addDependency (taskId dependsOnTaskId userId : Nat) (s : St) :
    Except Err (Nat × Nat) × St :=
  let rows := s.tasks.filter
    (fun t => (t.id == taskId || t.id == dependsOnTaskId) && t.user_id == userId)
  if !(rows.length == 2) then (Except.error Err.notFound, s)
  else if Task.checkCircularDependency s taskId dependsOnTaskId then
    (Except.error Err.circular, s)
  else if (taskId, dependsOnTaskId) ∈ s.deps then
    (Except.error Err.alreadyExists, s)
  else
    let s1 : St := { s with deps := s.deps ++ [(taskId, dependsOnTaskId)] }
    (Except.ok (taskId, dependsOnTaskId),
     Task.updateTaskStatusBasedOnDependencies taskId s1)

/-- `Task.removeDependency(taskId, dependsOnTaskId, userId)`: ownership check
on `taskId` only, then the delete, then — unconditionally, even when the
delete matched no row — the status recompute on `taskId`.  Returns the deleted
edge row, or `none` when no such edge existed. -/
def Task.removeDependency (taskId dependsOnTaskId userId : Nat) (s : St) :
    Except Err (Option (Nat × Nat)) × St :=
  if !(s.tasks.any (fun t => t.id == taskId && t.user_id == userId)) then
    (Except.error Err.notFound, s)
  else
    let s1 : St := { s with deps := s.deps.filter (fun e => !(e == (taskId, dependsOnTaskId))) }
    (Except.ok (if (taskId, dependsOnTaskId) ∈ s.deps then some (taskId, dependsOnTaskId) else none),
     Task.updateTaskStatusBasedOnDependencies taskId s1)

/-- The dynamic field map built by `Task.update` from `Object.keys(updateData)`:
one optional assignment per updatable column of the `tasks` table.  A `some`
field corresponds to a defined key of the JavaScript object. -/
structure UpdateData where
  title : Option String := none
  description : Option (Option String) := none
  due_date : Option (Option Nat) := none
  priority : Option Priority := none
  status : Option Status := none
  parent_task_id : Option (Option Nat) := none
  user_id : Option Nat := none
  deriving DecidableEq, Repr

/-- Number of defined keys in the field map (`fields.length` in the source). -/
def UpdateData.definedCount (m : UpdateData) : Nat :=
  (if m.title.isSome then 1 else 0) +
  (if m.description.isSome then 1 else 0) +
  (if m.due_date.isSome then 1 else 0) +
  (if m.priority.isSome then 1 else 0) +
  (if m.status.isSome then 1 else 0) +
  (if m.parent_task_id.isSome then 1 else 0) +
  (if m.user_id.isSome then 1 else 0)

/-- Application of the generated `SET key = $n` list to one row: every defined
key overwrites its column, every undefined key leaves it alone. -/
def applyUpdate (m : UpdateData) (t : TaskRow) : TaskRow :=
  { t with
    title := m.title.getD t.title,
    description := m.description.getD t.description,
    due_date := m.due_date.getD t.due_date,
    priority := m.priority.getD t.priority,
    status := m.status.getD t.status,
    parent_task_id := m.parent_task_id.getD t.parent_task_id,
    user_id := m.user_id.getD t.user_id }

/-- The table rewrite performed by `Task.update`: every row matched by the
WHERE clause has the defined fields overwritten. -/
def updatedTasks (taskId userId : Nat) (m : UpdateData) (l : List TaskRow) : List TaskRow :=
  l.map (fun x => if x.id == taskId && x.user_id == userId then applyUpdate m x else x)

/-- `Task.update(taskId, userId, updateData)`: throws when no field is
defined, otherwise runs `UPDATE tasks SET ... WHERE id = $ AND user_id = $`
and returns the updated row (`none` when the WHERE clause matched nothing). -/
def Task.update (taskId userId : Nat) (m : UpdateData) (s : St) :
    Except Err (Option TaskRow) × St :=
  if m.definedCount == 0 then (Except.error Err.noFields, s)
  else
    match s.tasks.find? (fun t => t.id == taskId && t.user_id == userId) with
    | none => (Except.ok none, s)
    | some t =>
      (Except.ok (some (applyUpdate m t)), { s with tasks := updatedTasks taskId userId m s.tasks })

/-- `Task.canCompleteTask(taskId)`: the count of rows with
`parent_task_id = $1 AND status != 'Completed'` is zero (no user filter in
the source). -/
def Task.canCompleteTask (taskId : Nat) (s : St) : Bool :=
  (s.tasks.filter
    (fun t => t.parent_task_id == some taskId && !(t.status == Status.completed))).length == 0

/-- `Task.markAsCompleted(taskId, userId)`: rejects when a subtask is
incomplete, otherwise writes status `Completed` through `Task.update` and then
recomputes every dependent (edges with `depends_on_task_id = taskId`, no user
filter). -/
def Task.markAsCompleted (taskId userId : Nat) (s : St) :
    Except Err (Option TaskRow) × St :=
  if !(Task.canCompleteTask taskId s) then (Except.error Err.subtasksIncomplete, s)
  else
    match Task.update taskId userId { status := some Status.completed } s with
    | (Except.error e, s1) => (Except.error e, s1)
    | (Except.ok r, s1) =>
      let dependents := (s1.deps.filter (fun e => e.2 == taskId)).map (fun e => e.1)
      (Except.ok r,
       dependents.foldl (fun st d => Task.updateTaskStatusBasedOnDependencies d st) s1)

/-- `Task.create(taskData)`: inserts a row; `priority` defaults to `Medium`
and `status` to `To Do` when the caller leaves them undefined.  The id is the
next value of the SERIAL sequence (fresh, larger than every existing id). -/
def Task.create (userId : Nat) (title : String) (description : Option String)
    (parent_task_id : Option Nat) (due_date : Option Nat)
    (priority : Option Priority) (status : Option Status) (s : St) : TaskRow × St :=
  let newId := (s.tasks.map (fun t => t.id)).foldl Nat.max 0 + 1
  let row : TaskRow :=
    { id := newId, user_id := userId, title := title, description := description,
      parent_task_id := parent_task_id, due_date := due_date,
      priority := priority.getD Priority.medium, status := status.getD Status.todo }
  (row, { s with tasks := s.tasks ++ [row] })

/-- One round of the `ON DELETE CASCADE` closure on `parent_task_id`: ids of
rows whose parent is already marked for deletion but which are not yet marked. -/
def cascadeStep (tasks : List TaskRow) (acc : List Nat) : List Nat :=
  (tasks.filter (fun t =>
    (match t.parent_task_id with
     | some p => decide (p ∈ acc)
     | none => false) && !(decide (t.id ∈ acc)))).map (fun t => t.id)

/-- Fixpoint of `cascadeStep` (fuelled; `tasks.length` rounds always suffice). -/
def cascadeIds (tasks : List TaskRow) : Nat → List Nat → List Nat
  | 0, acc => acc
  | Nat.succ n, acc =>
    let more := cascadeStep tasks acc
    if more.isEmpty then acc else cascadeIds tasks n (acc ++ more)

/-- Ids removed by deleting task `i`: the task and, transitively, every
descendant through the `parent_task_id` foreign key. -/
def cascadeClosure (s : St) (i : Nat) : List Nat :=
  cascadeIds s.tasks s.tasks.length [i]

/-- The state after the database cascade for deleting task `i`: rows in the
closure disappear, as does every dependency edge touching a deleted id. -/
def deleteCascade (s : St) (i : Nat) : St :=
  { tasks := s.tasks.filter (fun x => !(decide (x.id ∈ cascadeClosure s i))),
    deps := s.deps.filter
      (fun e => !(decide (e.1 ∈ cascadeClosure s i)) && !(decide (e.2 ∈ cascadeClosure s i))) }

/-- `Task.delete(taskId, userId)`: `DELETE FROM tasks WHERE id = $1 AND
user_id = $2 RETURNING *`.  The database then cascade-deletes every descendant
row (via the `parent_task_id` foreign key) and every `task_dependencies` row
touching a deleted task.  No status recomputation is performed. -/
def Task.delete (taskId userId : Nat) (s : St) : Option TaskRow × St :=
  match s.tasks.find? (fun t => t.id == taskId && t.user_id == userId) with
  | none => (none, s)
  | some t => (some t, deleteCascade s taskId)

/-- `Task.getDependents(taskId, userId)`: rows of tasks that depend on
`taskId`, joined through `task_dependencies` and scoped by owner. -/
def Task.getDependents (taskId userId : Nat) (s : St) : List TaskRow :=
  (s.deps.filter (fun e => e.2 == taskId)).filterMap
    (fun e => s.tasks.find? (fun t => t.id == e.1 && t.user_id == userId))

/-- The distinct HTTP-level rejections produced by `TaskController` for the
operations modelled here. -/
inductive ApiErr where
  | taskNotFound
  | parentNotFound
  | parentNested
  | cannotComplete
  | circularDep
  | depNotFound
  | duplicateDep
  | serverError
  deriving DecidableEq, Repr

/-- The HTTP status code the controller attaches to each rejection. -/
def ApiErr.httpCode : ApiErr → Nat
  | ApiErr.taskNotFound => 404
  | ApiErr.parentNotFound => 404
  | ApiErr.parentNested => 400
  | ApiErr.cannotComplete => 400
  | ApiErr.circularDep => 400
  | ApiErr.depNotFound => 404
  | ApiErr.duplicateDep => 409
  | ApiErr.serverError => 500

/-- `TaskController.createTask`: when a parent id is supplied, the parent must
exist for this owner and must itself have no parent (single level of nesting);
then the row is inserted. -/
def TaskController.createTask (userId : Nat) (title : String)
    (description : Option String) (parentTaskId : Option Nat)
    (due_date : Option Nat) (priority : Option Priority) (status : Option Status)
    (s : St) : Except ApiErr TaskRow × St :=
  match parentTaskId with
  | some p =>
    match Task.findById p userId s with
    | none => (Except.error ApiErr.parentNotFound, s)
    | some parentTask =>
      if !(parentTask.parent_task_id == none) then (Except.error ApiErr.parentNested, s)
      else
        let (row, s1) := Task.create userId title description parentTaskId due_date priority status s
        (Except.ok row, s1)
  | none =>
    let (row, s1) := Task.create userId title description none due_date priority status s
    (Except.ok row, s1)

/-- `TaskController.createSubtask`: same parent guard as `createTask`, with
the subtask's status forced to `To Do`. -/
def TaskController.createSubtask (parentTaskId userId : Nat) (title : String)
    (description : Option String) (due_date : Option Nat) (priority : Option Priority)
    (s : St) : Except ApiErr TaskRow × St :=
  match Task.findById parentTaskId userId s with
  | none => (Except.error ApiErr.parentNotFound, s)
  | some parentTask =>
    if !(parentTask.parent_task_id == none) then (Except.error ApiErr.parentNested, s)
    else
      let (row, s1) := Task.create userId title description (some parentTaskId)
        due_date priority (some Status.todo) s
      (Except.ok row, s1)

/-- `TaskController.updateTask`: existence check, a completion gate only when
the requested status is `Completed`, then `Task.update` on the request body
as-is, then — only for a completion — recomputation of the owner's dependents. -/
def TaskController.updateTask (taskId userId : Nat) (m : UpdateData) (s : St) :
    Except ApiErr TaskRow × St :=
  match Task.findById taskId userId s with
  | none => (Except.error ApiErr.taskNotFound, s)
  | some _ =>
    if m.status == some Status.completed && !(Task.canCompleteTask taskId s) then
      (Except.error ApiErr.cannotComplete, s)
    else
      match Task.update taskId userId m s with
      | (Except.error _, s1) => (Except.error ApiErr.serverError, s1)
      | (Except.ok none, s1) => (Except.error ApiErr.taskNotFound, s1)
      | (Except.ok (some row), s1) =>
        if m.status == some Status.completed then
          let dependents := (Task.getDependents taskId userId s1).map (fun t => t.id)
          (Except.ok row,
           dependents.foldl (fun st d => Task.updateTaskStatusBasedOnDependencies d st) s1)
        else (Except.ok row, s1)

/-- `TaskController.deleteTask`: delete and report 404 when nothing matched. -/
def TaskController.deleteTask (taskId userId : Nat) (s : St) :
    Except ApiErr TaskRow × St :=
  match Task.delete taskId userId s with
  | (none, s1) => (Except.error ApiErr.taskNotFound, s1)
  | (some row, s1) => (Except.ok row, s1)

/-- `TaskController.addDependency`: existence check on the source task, then
`Task.addDependency`; model errors are mapped to HTTP rejections by message
substring (`circular dependency` to 400, `not found` to 404, `already exists`
to 409). -/
def TaskController.addDependency (taskId dependsOnTaskId userId : Nat) (s : St) :
    Except ApiErr (Nat × Nat) × St :=
  match Task.findById taskId userId s with
  | none => (Except.error ApiErr.taskNotFound, s)
  | some _ =>
    match Task.addDependency taskId dependsOnTaskId userId s with
    | (Except.ok e, s1) => (Except.ok e, s1)
    | (Except.error Err.circular, s1) => (Except.error ApiErr.circularDep, s1)
    | (Except.error Err.notFound, s1) => (Except.error ApiErr.taskNotFound, s1)
    | (Except.error Err.alreadyExists, s1) => (Except.error ApiErr.duplicateDep, s1)
    | (Except.error _, s1) => (Except.error ApiErr.serverError, s1)

/-- `TaskController.removeDependency`: a thrown model error becomes a 500, a
missing edge becomes the 404 `Dependency not found` response. -/
def TaskController.removeDependency (taskId dependsOnTaskId userId : Nat) (s : St) :
    Except ApiErr (Nat × Nat) × St :=
  match Task.removeDependency taskId dependsOnTaskId userId s with
  | (Except.error _, s1) => (Except.error ApiErr.serverError, s1)
  | (Except.ok none, s1) => (Except.error ApiErr.depNotFound, s1)
  | (Except.ok (some e), s1) => (Except.ok e, s1)

/-- `TaskController.markAsCompleted`: maps the subtasks-incomplete throw to a
400 and a missing task to a 404. -/
def TaskController.markAsCompleted (taskId userId : Nat) (s : St) :
    Except ApiErr TaskRow × St :=
  match Task.markAsCompleted taskId userId s with
  | (Except.error Err.subtasksIncomplete, s1) => (Except.error ApiErr.cannotComplete, s1)
  | (Except.error _, s1) => (Except.error ApiErr.serverError, s1)
  | (Except.ok none, s1) => (Except.error ApiErr.taskNotFound, s1)
  | (Except.ok (some row), s1) => (Except.ok row, s1)

/-- Spec invariant 3 as a decidable predicate on states: every task with at
least one outgoing dependency edge is `Blocked` exactly when some dependency
target is not `Completed` and the task itself is not `Completed`. -/
def blockedConsistent (s : St) : Bool :=
  s.tasks.all (fun t =>
    !(s.deps.any (fun e => e.1 == t.id)) ||
    ((t.status == Status.blocked) == (hasIncompleteDeps s t.id && !(t.status == Status.completed))))

/-- Spec invariant 1 as a decidable predicate: a task with a non-null parent
has a parent whose own parent is null (hierarchy depth at most 1). -/
def depthAtMostOne (s : St) : Bool :=
  s.tasks.all (fun t =>
    match t.parent_task_id with
    | none => true
    | some p => s.tasks.all (fun q => !(q.id == p) || q.parent_task_id == none))

/-- The status produced by one run of `updateTaskStatusBasedOnDependencies`
as a function of the incomplete-dependency flag and the current status (a
restatement of its two conditional writes, used to characterise it). -/
def recomputedStatus (b : Bool) (cur : Status) : Status :=
  if b && !(cur == Status.blocked) && !(cur == Status.completed) then Status.blocked
  else if !b && (cur == Status.blocked) then Status.todo
  else cur

/-- A task row with the fields the scenarios vary; title, description, due
date and priority are fixed to defaults. -/
def baseTask (i u : Nat) (p : Option Nat) (st : Status) : TaskRow :=
  { id := i, user_id := u, title := "", description := none,
    parent_task_id := p, due_date := none, priority := Priority.medium, status := st }

/-- Section-8 scenario state: tasks 1, 2, 3 of owner 7 with edges 1→2 and
2→3 (task 1 depends on 2, task 2 depends on 3). -/
def stProbe : St :=
  { tasks := [baseTask 1 7 none Status.blocked, baseTask 2 7 none Status.blocked,
              baseTask 3 7 none Status.todo],
    deps := [(1, 2), (2, 3)] }

/-- Three independent tasks of owner 7, no edges. -/
def stThree : St :=
  { tasks := [baseTask 1 7 none Status.todo, baseTask 2 7 none Status.todo,
              baseTask 3 7 none Status.todo],
    deps := [] }

/-- States reached from `stThree` by adding 1→2, then 2→3, then 3→1. -/
def cyc1 : St := (Task.addDependency 1 2 7 stThree).2

/-- Second step of the cycle-building run. -/
def cyc2 : St := (Task.addDependency 2 3 7 cyc1).2

/-- Third step of the cycle-building run. -/
def cyc3 : St := (Task.addDependency 3 1 7 cyc2).2

/-- A single task of owner 7 (id 5), used for the self-dependency probe. -/
def stSelf : St := { tasks := [baseTask 5 7 none Status.todo], deps := [] }

/-- State after `addDependency 1 2` and the status cascade on `stThree`:
task 1 is Blocked on task 2. -/
def blocked12 : St := (TaskController.addDependency 1 2 7 stThree).2

/-- State after additionally updating task 1's status to In Progress through
the update endpoint. -/
def blocked12upd : St :=
  (TaskController.updateTask 1 7 { status := some Status.inProgress } blocked12).2

/-- Deletion scenario: task 1 Blocked on task 2, task 3 a subtask of task 2. -/
def stDel : St :=
  { tasks := [baseTask 1 7 none Status.blocked, baseTask 2 7 none Status.todo,
              baseTask 3 7 (some 2) Status.todo],
    deps := [(1, 2)] }

/-- State after deleting task 2 from `stDel`. -/
def stDelAfter : St := (Task.delete 2 7 stDel).2

/-- Reparenting run: create root task 1, subtask 2 under it, root task 3. -/
def nest1 : St :=
  (TaskController.createTask 7 "" none none none none none { tasks := [], deps := [] }).2

/-- Second step of the reparenting run. -/
def nest2 : St := (TaskController.createSubtask 1 7 "" none none none nest1).2

/-- Third step of the reparenting run. -/
def nest3 : St := (TaskController.createTask 7 "" none none none none none nest2).2

/-- Final step: the update endpoint reparents task 3 under subtask 2. -/
def nest4 : St :=
  (TaskController.updateTask 3 7 { parent_task_id := some (some 2) } nest3).2

/-- Stale-Blocked scenario for the remove-dependency probe: task 1 Blocked on
task 2, then task 2 deleted (the edge cascades away, task 1 stays Blocked). -/
def stStale : St := (Task.delete 2 7 (Task.addDependency 1 2 7 stThree).2).2

/-- Completion-gating fixture: task 1 with an incomplete subtask 2. -/
def stSub : St :=
  { tasks := [baseTask 1 7 none Status.todo, baseTask 2 7 (some 1) Status.todo], deps := [] }

/-- Completion-gating fixture: task 1 with its only subtask 2 completed. -/
def stSubDone : St :=
  { tasks := [baseTask 1 7 none Status.todo, baseTask 2 7 (some 1) Status.completed], deps := [] }

/-- Unfiltered-update fixture: two root tasks of owner 4. -/
def stW : St :=
  { tasks := [baseTask 1 4 none Status.todo, baseTask 2 4 none Status.todo], deps := [] }

/-- Unfiltered-update fixture: a field map that reparents the task and hands
it to another owner — keys outside the validated mutable fields. -/
def mW : UpdateData := { parent_task_id := some (some 1), user_id := some 9 }

/-- `find?` commutes with a map that does not change the predicate's verdict. -/
theorem find?_map_comm {α : Type} (g : α → α) (p : α → Bool)
    (hg : ∀ x, p (g x) = p x) :
    ∀ l : List α, (l.map g).find? p = (l.find? p).map g := by
  intro l
  induction l with
  | nil => rfl
  | cons a l ih =>
    by_cases h : p a = true
    · rw [List.map_cons, List.find?_cons_of_pos _ ((hg a).trans h),
        List.find?_cons_of_pos _ h, Option.map_some']
    · rw [List.map_cons, List.find?_cons_of_neg _ (by simp only [hg a]; simpa using h),
        List.find?_cons_of_neg _ (by simpa using h), ih]

/-- Looking up task `i` after `setStatus i v` yields the original row with its
status overwritten. -/
theorem findTask_setStatus (s : St) (i : Nat) (v : Status) :
    findTask (setStatus s i v) i
      = (findTask s i).map (fun t => if t.id == i then { t with status := v } else t) := by
  unfold findTask setStatus
  exact find?_map_comm _ _ (fun x => by by_cases h : (x.id == i) = true <;> simp [h]) s.tasks

/-- `setStatus i v` sets the status seen at `i` when the row exists. -/
theorem statusOf_setStatus_self (s : St) (i : Nat) (v : Status) (t : TaskRow)
    (hfind : findTask s i = some t) :
    statusOf (setStatus s i v) i = some v := by
  have hfind2 : s.tasks.find? (fun x => x.id == i) = some t := hfind
  have hid0 := List.find?_some hfind2
  have hid : (t.id == i) = true := hid0
  unfold statusOf
  rw [findTask_setStatus, hfind, Option.map_some', Option.map_some', if_pos hid]

/-- `setStatus d v` does not change the status seen at a different id. -/
theorem statusOf_setStatus_ne (s : St) (d i : Nat) (v : Status) (h : i ≠ d) :
    statusOf (setStatus s d v) i = statusOf s i := by
  unfold statusOf findTask setStatus
  rw [find?_map_comm _ _ (fun x => by by_cases hx : (x.id == d) = true <;> simp [hx]) s.tasks]
  cases hfx : s.tasks.find? (fun t => t.id == i) with
  | none => rfl
  | some x =>
    have hfx2 : s.tasks.find? (fun t => t.id == i) = some x := hfx
    have hxi : x.id = i := by simpa using List.find?_some hfx2
    have hxd : (x.id == d) = false := by simp [hxi, h]
    rw [Option.map_some', if_neg (by simp [hxd])]

/-- `updateTaskStatusBasedOnDependencies` either leaves the state alone or
performs a single status write on its argument. -/
theorem updateTaskStatus_cases (i : Nat) (s : St) :
    Task.updateTaskStatusBasedOnDependencies i s = s ∨
    ∃ v, Task.updateTaskStatusBasedOnDependencies i s = setStatus s i v := by
  unfold Task.updateTaskStatusBasedOnDependencies
  cases findTask s i with
  | none => exact Or.inl rfl
  | some t =>
    dsimp only
    split
    · exact Or.inr ⟨Status.blocked, rfl⟩
    · split
      · exact Or.inr ⟨Status.todo, rfl⟩
      · exact Or.inl rfl

/-- The status recompute never touches the dependency table. -/
theorem deps_updateTaskStatus (i : Nat) (s : St) :
    (Task.updateTaskStatusBasedOnDependencies i s).deps = s.deps := by
  rcases updateTaskStatus_cases i s with h | ⟨v, h⟩
  · rw [h]
  · rw [h]; rfl

/-- Characterisation of the recompute: the status it leaves at `i` is
`recomputedStatus` of the incomplete-dependency flag and the previous status. -/
theorem statusOf_updateTaskStatus (s : St) (i : Nat) (t : TaskRow)
    (hfind : findTask s i = some t) :
    statusOf (Task.updateTaskStatusBasedOnDependencies i s) i
      = some (recomputedStatus (hasIncompleteDeps s i) t.status) := by
  unfold Task.updateTaskStatusBasedOnDependencies recomputedStatus
  rw [hfind]
  dsimp only
  by_cases h1 : (hasIncompleteDeps s i && !(t.status == Status.blocked)
      && !(t.status == Status.completed)) = true
  · rw [if_pos h1, if_pos h1, statusOf_setStatus_self s i Status.blocked t hfind]
  · rw [if_neg h1, if_neg h1]
    by_cases h2 : (!hasIncompleteDeps s i && (t.status == Status.blocked)) = true
    · rw [if_pos h2, if_pos h2, statusOf_setStatus_self s i Status.todo t hfind]
    · rw [if_neg h2, if_neg h2]
      unfold statusOf
      rw [hfind, Option.map_some']

/-- A completed task is never touched by the recompute cascade. -/
theorem updateTaskStatus_preserves_completed (d i : Nat) (s : St)
    (h : statusOf s i = some Status.completed) :
    statusOf (Task.updateTaskStatusBasedOnDependencies d s) i = some Status.completed := by
  by_cases hdi : i = d
  · subst hdi
    obtain ⟨t, ht, hst⟩ := Option.map_eq_some'.mp h
    rw [statusOf_updateTaskStatus s i t ht, hst]
    unfold recomputedStatus
    simp
  · rcases updateTaskStatus_cases d s with he | ⟨v, he⟩
    · rw [he]; exact h
    · rw [he, statusOf_setStatus_ne s d i v hdi]; exact h

/-- A completed task stays completed across a whole recompute fold. -/
theorem foldl_updateTaskStatus_preserves_completed (l : List Nat) (s : St) (i : Nat)
    (h : statusOf s i = some Status.completed) :
    statusOf (l.foldl (fun st d => Task.updateTaskStatusBasedOnDependencies d st) s) i
      = some Status.completed := by
  induction l generalizing s with
  | nil => exact h
  | cons d l ih => exact ih _ (updateTaskStatus_preserves_completed d i s h)

/-- With unique task ids, a successful owner-scoped lookup agrees with the
unscoped lookup used by the status engine. -/
theorem findTask_of_findById (s : St) (i u : Nat) (t : TaskRow)
    (hids : (s.tasks.map TaskRow.id).Nodup)
    (h : Task.findById i u s = some t) : findTask s i = some t := by
  have h2 : s.tasks.find? (fun x => x.id == i && x.user_id == u) = some t := h
  have hmem : t ∈ s.tasks := List.mem_of_find?_eq_some h2
  have hp0 := List.find?_some h2
  have hti : t.id = i := by simp only [Bool.and_eq_true, beq_iff_eq] at hp0; exact hp0.1
  cases hx : findTask s i with
  | none =>
    have hx2 : s.tasks.find? (fun x => x.id == i) = none := hx
    have := List.find?_eq_none.mp hx2 t hmem
    simp [hti] at this
  | some x =>
    have hx2 : s.tasks.find? (fun y => y.id == i) = some x := hx
    have hxm : x ∈ s.tasks := List.mem_of_find?_eq_some hx2
    have hxp := List.find?_some hx2
    have hxi : x.id = i := by simpa using hxp
    have hxt : x = t :=
      List.inj_on_of_nodup_map hids hxm hmem (by rw [hxi, hti])
    rw [hxt]

/-- With unique task ids, the ownership query of `addDependency` for the
self pair `(t, t)` matches at most one row. -/
theorem length_filter_self_le_one (l : List TaskRow)
    (hids : (l.map TaskRow.id).Nodup) (t u : Nat) :
    (l.filter (fun x => (x.id == t || x.id == t) && x.user_id == u)).length ≤ 1 := by
  induction l with
  | nil => simp
  | cons a l ih =>
    rw [List.map_cons, List.nodup_cons] at hids
    by_cases hpa : ((a.id == t || a.id == t) && a.user_id == u) = true
    · have hat : a.id = t := by
        simp only [Bool.or_self, Bool.and_eq_true, beq_iff_eq] at hpa
        exact hpa.1
      rw [List.filter_cons, if_pos hpa]
      have hnil : l.filter (fun x => (x.id == t || x.id == t) && x.user_id == u) = [] := by
        rw [List.filter_eq_nil_iff]
        intro x hx hpx
        have hxt : x.id = t := by
          simp only [Bool.or_self, Bool.and_eq_true, beq_iff_eq] at hpx
          exact hpx.1
        exact hids.1 (by rw [hat, ← hxt]; exact List.mem_map_of_mem TaskRow.id hx)
      rw [hnil]
      simp
    · rw [List.filter_cons, if_neg hpa]
      exact ih hids.2

/-- A `Task.update` on a row found by the owner-scoped lookup: the row with
every defined field overwritten is returned, and the table rewritten. -/
theorem update_found (s : St) (i u : Nat) (m : UpdateData) (t : TaskRow)
    (hm : (m.definedCount == 0) = false)
    (hfind : Task.findById i u s = some t) :
    Task.update i u m s = (Except.ok (some (applyUpdate m t)),
      { s with tasks := updatedTasks i u m s.tasks }) := by
  have hfind2 : s.tasks.find? (fun x => x.id == i && x.user_id == u) = some t := hfind
  unfold Task.update
  rw [hm, if_neg (by simp), hfind2]

/-- The status seen at `i` after the `Task.update` table rewrite is the status
of the updated row. -/
theorem statusOf_update_map (s : St) (i u : Nat) (m : UpdateData) (t : TaskRow)
    (hids : (s.tasks.map TaskRow.id).Nodup)
    (hfind : Task.findById i u s = some t) :
    statusOf { s with tasks := updatedTasks i u m s.tasks } i
      = some (applyUpdate m t).status := by
  have hfind2 : s.tasks.find? (fun x => x.id == i && x.user_id == u) = some t := hfind
  have hsel := List.find?_some hfind2
  have hft : s.tasks.find? (fun x => x.id == i) = some t := findTask_of_findById s i u t hids hfind
  have hg : ∀ x : TaskRow,
      ((if x.id == i && x.user_id == u then applyUpdate m x else x).id == i) = (x.id == i) := by
    intro x
    by_cases hx : (x.id == i && x.user_id == u) = true
    · rw [if_pos hx]; rfl
    · rw [if_neg hx]
  unfold statusOf findTask updatedTasks
  dsimp only
  rw [find?_map_comm _ _ hg s.tasks]
  rw [hft, Option.map_some', Option.map_some', if_pos hsel]

/-- Elements of the seed stay in the cascade closure. -/
theorem cascadeIds_mono (tasks : List TaskRow) (n : Nat) :
    ∀ (acc : List Nat) (a : Nat), a ∈ acc → a ∈ cascadeIds tasks n acc := by
  induction n with
  | zero => intro acc a h; exact h
  | succ n ih =>
    intro acc a h
    have hstep : cascadeIds tasks (Nat.succ n) acc
        = if (cascadeStep tasks acc).isEmpty then acc
          else cascadeIds tasks n (acc ++ cascadeStep tasks acc) := rfl
    rw [hstep]
    by_cases he : (cascadeStep tasks acc).isEmpty = true
    · rw [if_pos he]; exact h
    · rw [if_neg he]; exact ih _ a (List.mem_append_left _ h)

/-- A row whose parent is marked and which is not yet marked is produced by
one cascade round. -/
theorem cascadeStep_mem (tasks : List TaskRow) (x : TaskRow) (p : Nat) (acc : List Nat)
    (hx : x ∈ tasks) (hp : x.parent_task_id = some p) (hpacc : p ∈ acc)
    (hnot : x.id ∉ acc) : x.id ∈ cascadeStep tasks acc := by
  unfold cascadeStep
  refine List.mem_map.mpr ⟨x, List.mem_filter.mpr ⟨hx, ?_⟩, rfl⟩
  rw [hp]
  simp [hpacc, hnot]

/-- Every direct child of a marked task ends up in the cascade closure (the
fuel only needs to be positive for one more round). -/
theorem child_mem_cascadeIds (tasks : List TaskRow) (x : TaskRow) (p : Nat) (n : Nat)
    (acc : List Nat) (hx : x ∈ tasks) (hp : x.parent_task_id = some p)
    (hpacc : p ∈ acc) : x.id ∈ cascadeIds tasks (Nat.succ n) acc := by
  by_cases hmem : x.id ∈ acc
  · exact cascadeIds_mono tasks (Nat.succ n) acc x.id hmem
  · have hstepeq : cascadeIds tasks (Nat.succ n) acc
        = if (cascadeStep tasks acc).isEmpty then acc
          else cascadeIds tasks n (acc ++ cascadeStep tasks acc) := rfl
    have hstep := cascadeStep_mem tasks x p acc hx hp hpacc hmem
    rw [hstepeq]
    by_cases he : (cascadeStep tasks acc).isEmpty = true
    · exact absurd (List.isEmpty_iff.mp he ▸ hstep) (List.not_mem_nil x.id)
    · rw [if_neg he]
      exact cascadeIds_mono tasks n _ x.id (List.mem_append_right _ hstep)

/-- Claim C1: the cycle check of `addDependency` / `validateDependencies` is
required to report `wouldCreateCycle = true` for the pair (task 3, dependsOn 1)
when edges 1→2 and 2→3 exist, because a path 1→2→3 leads from the dependency
target back to the task.  The code reports `false`: `checkCircularDependency`
walks the graph from the dependency target but never compares the nodes it
reaches against `fromTaskId`, so a cycle that would only be closed by the new
edge is never detected. -/
theorem checkCircular_probe_reports_false :
    Task.validateDependencies 3 1 stProbe = false ∧
    Task.checkCircularDependency stProbe 3 1 = false :=
  ⟨rfl, rfl⟩

/-- Claim C2: starting from three tasks and no edges, the call sequence
`addDependency 1 2`, `addDependency 2 3`, `addDependency 3 1` is accepted in
full — the third call is not rejected as a cycle — and leaves the dependency
table containing the directed cycle 1→2→3→1. -/
theorem addDependency_sequence_creates_cycle :
    (Task.addDependency 1 2 7 stThree).1 = Except.ok (1, 2) ∧
    (Task.addDependency 2 3 7 cyc1).1 = Except.ok (2, 3) ∧
    (Task.addDependency 3 1 7 cyc2).1 = Except.ok (3, 1) ∧
    cyc3.deps = [(1, 2), (2, 3), (3, 1)] :=
  ⟨rfl, rfl, rfl, rfl⟩

/-- Claim C3 (counterexample): after `addDependency 1 2` the invariant holds
(task 1 is Blocked), but the update endpoint then accepts a direct status
write of In Progress on task 1 without re-validation, leaving a task that has
an incomplete dependency and is neither Blocked nor Completed. -/
theorem statusInvariant_broken_by_update :
    blockedConsistent blocked12 = true ∧
    statusOf blocked12 1 = some Status.blocked ∧
    (TaskController.updateTask 1 7 { status := some Status.inProgress } blocked12).1.isOk = true ∧
    statusOf blocked12upd 1 = some Status.inProgress ∧
    blockedConsistent blocked12upd = false :=
  ⟨rfl, rfl, rfl, rfl, rfl⟩

/-- Claim C4 (counterexample): deleting task 2 removes it, its subtask 3 and
the edge 1→2, but performs no status re-evaluation of the former predecessor:
task 1, Blocked solely on the deleted task, remains Blocked instead of ending
with status ToDo as the claim states. -/
theorem delete_leaves_predecessor_blocked :
    (Task.delete 2 7 stDel).1 = some (baseTask 2 7 none Status.todo) ∧
    stDelAfter.tasks = [baseTask 1 7 none Status.blocked] ∧
    stDelAfter.deps = [] ∧
    statusOf stDelAfter 1 = some Status.blocked :=
  ⟨rfl, rfl, rfl, rfl⟩

/-- Claim C5 (counterexample): the creation endpoints reject a nested parent,
but the update endpoint accepts `parent_task_id` from the request body with no
hierarchy check: reparenting root task 3 under subtask 2 succeeds and produces
a chain 3 → 2 → 1 of nesting depth 2. -/
theorem nesting_depth_violated_by_update :
    depthAtMostOne nest3 = true ∧
    (TaskController.updateTask 3 7 { parent_task_id := some (some 2) } nest3).1.isOk = true ∧
    (findTask nest4 3).map (fun t => t.parent_task_id) = some (some 2) ∧
    (findTask nest4 2).map (fun t => t.parent_task_id) = some (some 1) ∧
    depthAtMostOne nest4 = false :=
  ⟨rfl, rfl, rfl, rfl, rfl⟩

/-- Claim C7 (counterexample): `addDependency 5 5` on an existing task 5 is
rejected, but not with a SelfDependency error: the ownership query returns a
single row for the self pair, so the result is exactly the same not-found
rejection (HTTP 404) produced for a pair with a nonexistent task, and no
self-dependency error class exists in the code. -/
theorem selfDependency_reported_as_notFound :
    TaskController.addDependency 5 5 7 stSelf = (Except.error ApiErr.taskNotFound, stSelf) ∧
    TaskController.addDependency 5 99 7 stSelf = (Except.error ApiErr.taskNotFound, stSelf) ∧
    ApiErr.httpCode ApiErr.taskNotFound = 404 :=
  ⟨rfl, rfl, rfl⟩

/-- Claim C8: with task 1 depending on task 2 and task 2 depending on task 3
(1 and 2 Blocked, 3 ToDo), completing task 3 first unblocks task 2, and then
completing task 2 unblocks task 1 — task 1 ends in ToDo although no operation
was invoked on it. -/
theorem completion_cascade_unblocks_transitive_dependent :
    statusOf stProbe 1 = some Status.blocked ∧
    (Task.markAsCompleted 3 7 stProbe).1.isOk = true ∧
    statusOf (Task.markAsCompleted 3 7 stProbe).2 2 = some Status.todo ∧
    statusOf (Task.markAsCompleted 3 7 stProbe).2 1 = some Status.blocked ∧
    (Task.markAsCompleted 2 7 (Task.markAsCompleted 3 7 stProbe).2).1.isOk = true ∧
    statusOf (Task.markAsCompleted 2 7 (Task.markAsCompleted 3 7 stProbe).2).2 1
      = some Status.todo :=
  ⟨rfl, rfl, rfl, rfl, rfl, rfl⟩

/-- Claim C9 (counterexample): in the reachable state where task 1 is Blocked
with no remaining edges (its dependency target was deleted), removing the
nonexistent edge (1, 2) is reported as Dependency-not-found (HTTP 404), yet
the failed call still rewrites task 1's status from Blocked to ToDo — the
status recompute runs even when the delete matched no row. -/
theorem removeDependency_failed_call_writes_status :
    statusOf stStale 1 = some Status.blocked ∧
    stStale.deps = [] ∧
    (TaskController.removeDependency 1 2 7 stStale).1 = Except.error ApiErr.depNotFound ∧
    statusOf (TaskController.removeDependency 1 2 7 stStale).2 1 = some Status.todo :=
  ⟨rfl, rfl, rfl, rfl⟩

/-- Claim C3 (amended): the Blocked-iff-incomplete-dependency biconditional is
established for a task only by a run of `updateTaskStatusBasedOnDependencies`
on that task (and hence holds after add/remove-dependency and completion
cascades, which invoke it), not after every mutation entry point: immediately
after the recompute runs on task `i`, `i` is Blocked iff it had an incomplete
dependency at the time of the check and its resulting status is not
Completed. -/
theorem updateTaskStatus_establishes_blocked_iff (s : St) (i : Nat) (t : TaskRow)
    (hfind : findTask s i = some t) :
    statusOf (Task.updateTaskStatusBasedOnDependencies i s) i = some Status.blocked
      ↔ (hasIncompleteDeps s i = true ∧
         statusOf (Task.updateTaskStatusBasedOnDependencies i s) i ≠ some Status.completed) := by
  rw [statusOf_updateTaskStatus s i t hfind]
  cases hb : hasIncompleteDeps s i <;> cases hcur : t.status <;> simp [recomputedStatus]

/-- Witness for the C3 amended theorem: the biconditional instantiated at
task 1 of the section-8 state. -/
theorem updateTaskStatus_blocked_iff_witness :
    statusOf (Task.updateTaskStatusBasedOnDependencies 1 stProbe) 1 = some Status.blocked
      ↔ (hasIncompleteDeps stProbe 1 = true ∧
         statusOf (Task.updateTaskStatusBasedOnDependencies 1 stProbe) 1 ≠ some Status.completed) :=
  updateTaskStatus_establishes_blocked_iff stProbe 1 (baseTask 1 7 none Status.blocked) rfl

/-- Claim C7 (amended): `addDependency t t` is always rejected before any
graph traversal and never creates an edge, but the rejection is the generic
not-found/ownership error (the `WHERE id IN (t, t)` check demands two rows and
a self pair matches at most one), not a dedicated SelfDependency error — no
such error class exists in the code. -/
theorem addDependency_self_always_notFound (s : St) (t u : Nat)
    (hids : (s.tasks.map TaskRow.id).Nodup) :
    Task.addDependency t t u s = (Except.error Err.notFound, s) := by
  unfold Task.addDependency
  have hle := length_filter_self_le_one s.tasks hids t u
  have hcond : ((s.tasks.filter
      (fun x => (x.id == t || x.id == t) && x.user_id == u)).length == 2) = false := by
    rw [beq_eq_false_iff_ne]
    omega
  simp only [hcond, Bool.not_false, if_true]

/-- Witness for the C7 amended theorem at the one-task fixture. -/
theorem addDependency_self_notFound_witness :
    Task.addDependency 5 5 7 stSelf = (Except.error Err.notFound, stSelf) :=
  addDependency_self_always_notFound stSelf 5 7 (by decide)

/-- Claim C4 (amended): deleting an existing task returns the deleted row and
cascades — surviving rows are never the deleted task, never one of its
subtasks, and surviving edges touch neither the deleted task nor any of its
subtasks — but no status re-evaluation happens: every surviving row is kept
verbatim from the prior state, so a task Blocked solely on the deleted task
stays Blocked. -/
theorem delete_cascades_without_recompute (s : St) (i u : Nat) (t : TaskRow)
    (hfind : s.tasks.find? (fun x => x.id == i && x.user_id == u) = some t) :
    (Task.delete i u s).1 = some t ∧
    (∀ x ∈ (Task.delete i u s).2.tasks, x ∈ s.tasks ∧ x.id ≠ i ∧ x.parent_task_id ≠ some i) ∧
    (∀ e ∈ (Task.delete i u s).2.deps, e ∈ s.deps ∧ e.1 ≠ i ∧ e.2 ≠ i ∧
      ∀ x ∈ s.tasks, x.parent_task_id = some i → e.1 ≠ x.id ∧ e.2 ≠ x.id) := by
  have hdel : Task.delete i u s = (some t, deleteCascade s i) := by
    unfold Task.delete
    rw [hfind]
  have hmemt : t ∈ s.tasks := List.mem_of_find?_eq_some hfind
  have hlen : s.tasks.length = Nat.succ (s.tasks.length - 1) := by
    cases hts : s.tasks with
    | nil => rw [hts] at hmemt; exact absurd hmemt (List.not_mem_nil t)
    | cons a l => simp
  have hi : i ∈ cascadeClosure s i :=
    cascadeIds_mono s.tasks s.tasks.length [i] i (List.mem_singleton.mpr rfl)
  have hchild : ∀ x ∈ s.tasks, x.parent_task_id = some i → x.id ∈ cascadeClosure s i := by
    intro x hx hp
    unfold cascadeClosure
    rw [hlen]
    exact child_mem_cascadeIds s.tasks x i (s.tasks.length - 1) [i] hx hp
      (List.mem_singleton.mpr rfl)
  rw [hdel]
  refine ⟨rfl, ?_, ?_⟩
  · intro x hx
    obtain ⟨hmem, hcond⟩ := List.mem_filter.mp hx
    have hnin : x.id ∉ cascadeClosure s i := by simpa using hcond
    exact ⟨hmem, fun h => hnin (h ▸ hi), fun h => hnin (hchild x hmem h)⟩
  · intro e he
    obtain ⟨hmem, hcond⟩ := List.mem_filter.mp he
    have hnin : e.1 ∉ cascadeClosure s i ∧ e.2 ∉ cascadeClosure s i := by
      constructor <;> intro hin <;> simp [hin] at hcond
    refine ⟨hmem, fun h => hnin.1 (h ▸ hi), fun h => hnin.2 (h ▸ hi), ?_⟩
    intro x hx hp
    exact ⟨fun h => hnin.1 (h ▸ hchild x hx hp), fun h => hnin.2 (h ▸ hchild x hx hp)⟩

/-- Witness for the C4 amended theorem: the deletion scenario state. -/
theorem delete_cascades_witness :
    (Task.delete 2 7 stDel).1 = some (baseTask 2 7 none Status.todo) :=
  (delete_cascades_without_recompute stDel 2 7 (baseTask 2 7 none Status.todo) rfl).1

/-- Claim C5 (amended): the creation endpoints do enforce the depth bound —
creating a task or subtask under a parent that itself has a parent is always
rejected with the nested-parent error and leaves the state unchanged — but
the invariant is not preserved by task update, which accepts a
`parent_task_id` assignment without any hierarchy check. -/
theorem create_rejects_nested_parent (s : St) (u p : Nat) (ti : String)
    (de : Option String) (dd : Option Nat) (pr : Option Priority) (stt : Option Status)
    (parentTask : TaskRow)
    (hfind : Task.findById p u s = some parentTask)
    (hnested : parentTask.parent_task_id ≠ none) :
    TaskController.createTask u ti de (some p) dd pr stt s
      = (Except.error ApiErr.parentNested, s) ∧
    TaskController.createSubtask p u ti de dd pr s
      = (Except.error ApiErr.parentNested, s) := by
  have hcond : (parentTask.parent_task_id == none) = false := by
    cases hh : parentTask.parent_task_id with
    | none => exact absurd hh hnested
    | some a => rfl
  constructor
  · unfold TaskController.createTask
    dsimp only
    rw [hfind]
    simp only [hcond, Bool.not_false, if_true]
  · unfold TaskController.createSubtask
    rw [hfind]
    simp only [hcond, Bool.not_false, if_true]

/-- Witness for the C5 amended theorem: creating under subtask 2 of the
reparenting run is rejected. -/
theorem create_rejects_nested_parent_witness :
    TaskController.createTask 7 "" none (some 2) none none none nest3
      = (Except.error ApiErr.parentNested, nest3) ∧
    TaskController.createSubtask 2 7 "" none none none nest3
      = (Except.error ApiErr.parentNested, nest3) :=
  create_rejects_nested_parent nest3 7 2 "" none none none none
    (baseTask 2 7 (some 1) Status.todo) (by decide) (by decide)

/-- Claim C6: `markAsCompleted` on a task with some non-Completed subtask
fails with the subtasks-incomplete error and leaves the state untouched; on a
task all of whose subtasks are Completed (or with none) it returns the updated
row and leaves the task's status Completed — also after the dependent-recompute
cascade it triggers. -/
theorem markAsCompleted_gated_by_subtasks (s : St) (i u : Nat)
    (hids : (s.tasks.map TaskRow.id).Nodup) :
    ((∃ x ∈ s.tasks, x.parent_task_id = some i ∧ x.status ≠ Status.completed) →
      Task.markAsCompleted i u s = (Except.error Err.subtasksIncomplete, s)) ∧
    (∀ t, Task.findById i u s = some t →
      (∀ x ∈ s.tasks, x.parent_task_id = some i → x.status = Status.completed) →
      (Task.markAsCompleted i u s).1
          = Except.ok (some (applyUpdate { status := some Status.completed } t)) ∧
      statusOf (Task.markAsCompleted i u s).2 i = some Status.completed) := by
  constructor
  · rintro ⟨x, hx, hpar, hst⟩
    have hxf : x ∈ s.tasks.filter
        (fun y => y.parent_task_id == some i && !(y.status == Status.completed)) :=
      List.mem_filter.mpr ⟨hx, by simp [hpar, hst]⟩
    have hne : (s.tasks.filter
        (fun y => y.parent_task_id == some i && !(y.status == Status.completed))).length ≠ 0 := by
      intro h0
      rw [List.length_eq_zero] at h0
      rw [h0] at hxf
      exact absurd hxf (List.not_mem_nil x)
    have hcc : Task.canCompleteTask i s = false := by
      unfold Task.canCompleteTask
      exact beq_eq_false_iff_ne.mpr hne
    unfold Task.markAsCompleted
    simp only [hcc, Bool.not_false, if_true]
  · intro t hfind hall
    have hcc : Task.canCompleteTask i s = true := by
      unfold Task.canCompleteTask
      have hnil : s.tasks.filter
          (fun y => y.parent_task_id == some i && !(y.status == Status.completed)) = [] := by
        rw [List.filter_eq_nil_iff]
        intro x hx hpx
        simp only [Bool.and_eq_true, beq_iff_eq, Bool.not_eq_true'] at hpx
        exact (beq_eq_false_iff_ne.mp hpx.2) (hall x hx hpx.1)
      rw [hnil]
      rfl
    have hm : ((({ status := some Status.completed } : UpdateData)).definedCount == 0) = false := rfl
    have hupd := update_found s i u { status := some Status.completed } t hm hfind
    have hstat1 : statusOf { s with
        tasks := updatedTasks i u { status := some Status.completed } s.tasks } i
          = some Status.completed := by
      rw [statusOf_update_map s i u { status := some Status.completed } t hids hfind]
      rfl
    unfold Task.markAsCompleted
    simp only [hcc, Bool.not_true, Bool.false_eq_true, if_false]
    rw [hupd]
    exact ⟨rfl, foldl_updateTaskStatus_preserves_completed _ _ i hstat1⟩

/-- Witness for the C6 theorem: gating at the incomplete-subtask fixture and
success at the completed-subtask fixture. -/
theorem markAsCompleted_gated_witness :
    Task.markAsCompleted 1 7 stSub = (Except.error Err.subtasksIncomplete, stSub) ∧
    statusOf (Task.markAsCompleted 1 7 stSubDone).2 1 = some Status.completed :=
  ⟨(markAsCompleted_gated_by_subtasks stSub 1 7 (by decide)).1
      ⟨baseTask 2 7 (some 1) Status.todo, by decide, rfl, by decide⟩,
   ((markAsCompleted_gated_by_subtasks stSubDone 1 7 (by decide)).2
      (baseTask 1 7 none Status.todo) rfl (by decide)).2⟩

/-- Claim C9 (amended): removing a dependency pair for which no edge exists
(while the task is owned by the caller) is reported as the 404
dependency-not-found error and removes no edge, but the call is not free of
writes: the status recompute on the task still runs before the error is
reported and may rewrite the task's status. -/
theorem removeDependency_missing_edge_not_atomic (s : St) (t d u : Nat)
    (howned : (s.tasks.any (fun x => x.id == t && x.user_id == u)) = true)
    (hmiss : (t, d) ∉ s.deps) :
    TaskController.removeDependency t d u s
      = (Except.error ApiErr.depNotFound, Task.updateTaskStatusBasedOnDependencies t s) ∧
    (TaskController.removeDependency t d u s).2.deps = s.deps := by
  have hfilter : s.deps.filter (fun e => !(e == (t, d))) = s.deps := by
    rw [List.filter_eq_self]
    intro e he
    have hne : e ≠ (t, d) := fun hh => hmiss (hh ▸ he)
    simp [hne]
  have hrm : Task.removeDependency t d u s
      = (Except.ok none, Task.updateTaskStatusBasedOnDependencies t s) := by
    unfold Task.removeDependency
    simp only [howned, Bool.not_true, Bool.false_eq_true, if_false, hfilter,
      if_neg hmiss]
  have hctrl : TaskController.removeDependency t d u s
      = (Except.error ApiErr.depNotFound, Task.updateTaskStatusBasedOnDependencies t s) := by
    unfold TaskController.removeDependency
    rw [hrm]
  refine ⟨hctrl, ?_⟩
  rw [hctrl]
  exact deps_updateTaskStatus t s

/-- Witness for the C9 amended theorem at the stale-Blocked state. -/
theorem removeDependency_missing_edge_witness :
    TaskController.removeDependency 1 2 7 stStale
      = (Except.error ApiErr.depNotFound, Task.updateTaskStatusBasedOnDependencies 1 stStale) ∧
    (TaskController.removeDependency 1 2 7 stStale).2.deps = stStale.deps :=
  removeDependency_missing_edge_not_atomic stStale 1 2 7 (by decide) (by decide)

/-- Claim C10: `Task.update` applies every defined key of the caller-supplied
field map as a column assignment — including `parent_task_id` and `user_id`,
which are outside the validated mutable fields — and the update endpoint
forwards the body unchanged: when no status is requested, the controller
performs no hierarchy, ownership or status re-validation and returns exactly
the model update's result. -/
theorem update_applies_unvalidated_fields (s : St) (i u : Nat) (m : UpdateData) (t : TaskRow)
    (hm : (m.definedCount == 0) = false)
    (hfind : Task.findById i u s = some t) :
    (Task.update i u m s).1 = Except.ok (some (applyUpdate m t)) ∧
    (∀ v, m.title = some v → (applyUpdate m t).title = v) ∧
    (∀ v, m.description = some v → (applyUpdate m t).description = v) ∧
    (∀ v, m.due_date = some v → (applyUpdate m t).due_date = v) ∧
    (∀ v, m.priority = some v → (applyUpdate m t).priority = v) ∧
    (∀ v, m.status = some v → (applyUpdate m t).status = v) ∧
    (∀ v, m.parent_task_id = some v → (applyUpdate m t).parent_task_id = v) ∧
    (∀ v, m.user_id = some v → (applyUpdate m t).user_id = v) ∧
    (m.status = none →
      TaskController.updateTask i u m s
        = (Except.ok (applyUpdate m t), (Task.update i u m s).2)) := by
  have hupd := update_found s i u m t hm hfind
  refine ⟨by rw [hupd], ?_, ?_, ?_, ?_, ?_, ?_, ?_, ?_⟩
  · intro v hv; simp [applyUpdate, hv]
  · intro v hv; simp [applyUpdate, hv]
  · intro v hv; simp [applyUpdate, hv]
  · intro v hv; simp [applyUpdate, hv]
  · intro v hv; simp [applyUpdate, hv]
  · intro v hv; simp [applyUpdate, hv]
  · intro v hv; simp [applyUpdate, hv]
  · intro hst
    have hgate : (m.status == some Status.completed) = false := by rw [hst]; rfl
    unfold TaskController.updateTask
    rw [hfind]
    simp only [hgate, Bool.false_and, Bool.false_eq_true, if_false]
    rw [hupd]

/-- Witness for the C10 theorem: the field map reparenting task 2 and handing
it to owner 9 is applied verbatim by the model update, and the controller
forwards it. -/
theorem update_applies_unvalidated_fields_witness :
    (Task.update 2 4 mW stW).1 = Except.ok (some (applyUpdate mW (baseTask 2 4 none Status.todo))) ∧
    (applyUpdate mW (baseTask 2 4 none Status.todo)).parent_task_id = some 1 ∧
    (applyUpdate mW (baseTask 2 4 none Status.todo)).user_id = 9 ∧
    TaskController.updateTask 2 4 mW stW
      = (Except.ok (applyUpdate mW (baseTask 2 4 none Status.todo)), (Task.update 2 4 mW stW).2) := by
  have h := update_applies_unvalidated_fields stW 2 4 mW (baseTask 2 4 none Status.todo) rfl rfl
  exact ⟨h.1, h.2.2.2.2.2.2.1 (some 1) rfl, h.2.2.2.2.2.2.2.1 9 rfl, h.2.2.2.2.2.2.2.2 rfl⟩

end TaskApp
